import Mathlib

/-!
Verification development for the core query-execution and resource-scheduling
subsystem of a vector similarity search engine (milvus).  The definitions are a
shallow embedding of the C++ sources:

  * `exec/expression/ConjunctExpr.cpp`   (conjunct filter expression)
  * `query/visitors/ExecPlanNodeVisitor.cpp` (ANN and retrieve executor)
  * `simd/hook.cpp`                      (SIMD dispatch tables)
  * `scheduler/SchedInst.cpp`            (resource graph construction)

Bitsets and one-byte-per-element boolean column vectors are both embedded as
`List Bool`; machine `int64_t` values are embedded as `Int`/`Nat`.  Segment
operations whose implementation is out of scope (mask_with_timestamps,
mask_with_delete, timestamp_filter, find_first) are fields of a `Segment`
record, i.e. arbitrary functions, exactly as the executor sees them through the
segment interface.
-/

namespace Milvus

/-! ### Boolean column helpers (ConjunctExpr.cpp, lines 40-84)

`AllTrue`/`AllFalse` scan the one-byte-per-element boolean column; an empty
column yields `true` for both, as the C++ loops do. -/

def AllTrue (v : List Bool) : Bool :=
  v.all (fun b => b)

def AllFalse (v : List Bool) : Bool :=
  v.all (fun b => !b)

/-- Modelled from the spec: `ConjunctElementFunc` (declared in ConjunctExpr.h,
not among the covered sources) combines the new child result into the running
result elementwise — `and` when the conjunct is an AND, `or` when it is an OR —
and returns the number of still-active rows: rows still `true` for AND, rows
still `false` for OR ("If the combined result is fully dominated (all-false for
AND, all-true for OR), stop early"). -/
def ConjunctElementFunc (is_and : Bool) (input res : List Bool) :
    List Bool × Nat :=
  if is_and then
    let r := List.zipWith (fun a b => a && b) res input
    (r, r.count true)
  else
    let r := List.zipWith (fun a b => a || b) res input
    (r, r.count false)

/-- `PhyConjunctFilterExpr::UpdateResult` (ConjunctExpr.cpp, lines 86-97):
dispatches on `is_and_` to the elementwise combine. -/
def UpdateResult (is_and : Bool) (input res : List Bool) : List Bool × Nat :=
  ConjunctElementFunc is_and input res

/-- `PhyConjunctFilterExpr::CanSkipNextExprs` (ConjunctExpr.cpp, lines 99-105). -/
def CanSkipNextExprs (is_and : Bool) (v : List Bool) : Bool :=
  (is_and && AllFalse v) || (!is_and && AllTrue v)

/-- Loop body of `PhyConjunctFilterExpr::Eval` for children `i ≥ 1`
(ConjunctExpr.cpp, lines 119-127).  `running` is the running result, `k` the
number of child expressions evaluated so far; the loop stops as soon as
`UpdateResult` reports zero active rows.  The returned pair is the final
result together with the number of children that were evaluated. -/
def EvalLoop (is_and : Bool) (running : List Bool) (k : Nat) :
    List (List Bool) → List Bool × Nat
  | [] => (running, k)
  | c :: cs =>
    let step := UpdateResult is_and c running
    if step.2 = 0 then (step.1, k + 1)
    else EvalLoop is_and step.1 (k + 1) cs

/-- `PhyConjunctFilterExpr::Eval` (ConjunctExpr.cpp, lines 107-128) on a
conjunct with at least one child (`ResolveType` enforces arity ≥ 1).  Each
child expression is represented by the boolean column it would evaluate to;
the second component of the result counts how many children were actually
evaluated, embedding the short-circuit behaviour. -/
def Eval (is_and : Bool) (c0 : List Bool) (rest : List (List Bool)) :
    List Bool × Nat :=
  if CanSkipNextExprs is_and c0 then (c0, 1)
  else EvalLoop is_and c0 1 rest

/-- Running combination of children into an initial running result, in
evaluation order (the value the running result holds after consuming the
given children, ignoring short-circuiting). -/
def combineRun (is_and : Bool) (running : List Bool) (cs : List (List Bool)) :
    List Bool :=
  cs.foldl (fun r c => (UpdateResult is_and c r).1) running

/-- A running result is dominated when no further child can change the
outcome: all-false for AND, all-true for OR. -/
def dominated (is_and : Bool) (r : List Bool) : Bool :=
  if is_and then AllFalse r else AllTrue r

/-! ### Scalar data types and `ResolveType` (ConjunctExpr.cpp, lines 23-38) -/

inductive DataType where
  | BOOL | INT8 | INT16 | INT32 | INT64 | FLOAT | DOUBLE | VARCHAR
  deriving DecidableEq, Repr

/-- `PhyConjunctFilterExpr::ResolveType`: asserts at least one input and that
every input is BOOL, then returns BOOL.  The `AssertInfo` failures are embedded
as `Except.error`. -/
def ResolveType (inputs : List DataType) : Except String DataType :=
  if inputs.length > 0 then
    if inputs.all (fun t => t = DataType.BOOL) then
      Except.ok DataType.BOOL
    else
      Except.error "Conjunct expressions expect BOOLEAN"
  else
    Except.error "Conjunct expressions expect at least one argument"

/-! ### Plan executor (ExecPlanNodeVisitor.cpp) -/

/-- `bitset.all()` of the dynamic bitset used by the executor: true when every
bit is set, vacuously true for the empty bitset. -/
def bitsetAll (b : List Bool) : Bool :=
  b.all (fun x => x)

/-- `bitset.flip()`: complement every bit. -/
def flipBitset (b : List Bool) : List Bool :=
  b.map (fun x => !x)

/-- The segment interface as the executor uses it, specialised to the query
timestamp.  The mask/filter/find operations are opaque to the executor, so they
are arbitrary functions here. -/
structure Segment where
  active_count : Nat
  mask_with_timestamps : List Bool → List Bool
  mask_with_delete : List Bool → Nat → List Bool
  timestamp_filter : List Bool → List Bool
  timestamp_filter_offsets : List Bool → List Int → List Bool
  find_first : Int → List Bool → Bool → List Int

inductive MetricType where
  | L2 | IP | COSINE | HAMMING | JACCARD
  deriving DecidableEq, Repr

/-- Placeholder distance values of an empty search result; only the two
sentinel infinities are ever stored there. -/
inductive DistValue where
  | posInf | negInf
  deriving DecidableEq, Repr

/-- Modelled from the spec: the sentinel distance an empty `SubSearchResult`
is filled with (`SubSearchResult` is not among the covered sources) — "+∞ or
−∞ depending on metric": −∞ for the similarity metrics (IP, Cosine) where
larger is better, +∞ for the distance metrics. -/
def metricSentinel : MetricType → DistValue
  | MetricType.IP => DistValue.negInf
  | MetricType.COSINE => DistValue.negInf
  | _ => DistValue.posInf

structure SearchInfo where
  topk : Nat
  metric_type : MetricType
  round_decimal : Int
  deriving DecidableEq

structure SearchResult where
  total_nq : Nat
  unity_topK : Nat
  seg_offsets : List Int
  distances : List DistValue
  deriving DecidableEq

/-- `empty_search_result` (ExecPlanNodeVisitor.cpp, lines 65-77): builds a
`SubSearchResult` of `num_queries × topk` placeholder entries (offset −1,
distance = metric sentinel; the fill is modelled from the spec, see
`metricSentinel`) and moves its buffers into the final result. -/
def empty_search_result (num_queries : Nat) (info : SearchInfo) : SearchResult :=
  { total_nq := num_queries
    unity_topK := info.topk
    seg_offsets := List.replicate (num_queries * info.topk) (-1)
    distances := List.replicate (num_queries * info.topk)
      (metricSentinel info.metric_type) }

/-- One batch produced by the filter task (`task->Next()`): either a plain
boolean column, or a row vector carrying the boolean column together with the
materialized row offsets. -/
inductive ChunkResult where
  | column (bits : List Bool)
  | row (bits : List Bool) (offsets : List Int)
  deriving DecidableEq

/-- The boolean column of a chunk result (child 0 of the row vector). -/
def chunkBits : ChunkResult → List Bool
  | ChunkResult.column b => b
  | ChunkResult.row b _ => b

/-- `AppendOneChunk`: appends one chunk's boolean column to the bitset. -/
def AppendOneChunk (holder : List Bool) (chunk : List Bool) : List Bool :=
  holder ++ chunk

/-- The three mutable locals of `ExecuteExprNodeInternal`
(ExecPlanNodeVisitor.cpp, lines 79-134): the accumulated bitset, the one-shot
offset-cache flag and the cached offsets. -/
structure ExprExecState where
  bitset_holder : List Bool
  cache_offset_getted : Bool
  cache_offset : List Int
  deriving DecidableEq

/-- The `for (;;) { task->Next() ... }` loop of `ExecuteExprNodeInternal`:
each chunk's boolean column is appended to the bitset; the offsets of a row
chunk are cached only once (`cache_offset_getted` is one-shot). -/
def execLoop (st : ExprExecState) : List ChunkResult → ExprExecState
  | [] => st
  | ChunkResult.column bits :: rest =>
    execLoop { st with bitset_holder := AppendOneChunk st.bitset_holder bits } rest
  | ChunkResult.row bits offs :: rest =>
    let st1 := { st with bitset_holder := AppendOneChunk st.bitset_holder bits }
    let st2 :=
      if st1.cache_offset_getted then st1
      else { st1 with
              cache_offset := st1.cache_offset ++ offs
              cache_offset_getted := true }
    execLoop st2 rest

/-- `ExecPlanNodeVisitor::ExecuteExprNodeInternal`: clears the bitset holder
(start from `[]`) and drives the filter task to completion.  The chunk list is
the sequence of batches the compiled filter would produce. -/
def ExecuteExprNodeInternal (chunks : List ChunkResult) : ExprExecState :=
  execLoop { bitset_holder := [], cache_offset_getted := false,
             cache_offset := [] } chunks

/-- Modelled from the spec: `ExecuteExprNode` (declared in the generated
visitor header, not among the covered sources) drives the same loop with
throw-away cache locals and keeps only the accumulated bitset — "drive the
filter task to completion, accumulating each chunk's boolean vector into a
bitset". -/
def ExecuteExprNode (chunks : List ChunkResult) : List Bool :=
  (ExecuteExprNodeInternal chunks).bitset_holder

structure VectorPlanNode where
  search_info : SearchInfo
  filter_plannode : Option (List ChunkResult)

/-- Outcome of the ANN path: either an empty search result was returned without
invoking the vector index, or `segment.vector_search` was invoked with the
given visibility bitset. -/
inductive AnnOutcome where
  | emptyResult (r : SearchResult)
  | vectorSearch (bitset : List Bool)
  deriving DecidableEq

/-- `ExecPlanNodeVisitor::VectorVisitorImpl` (ExecPlanNodeVisitor.cpp, lines
136-188), with the number of query vectors of the placeholder group passed
explicitly. -/
def VectorVisitorImpl (seg : Segment) (node : VectorPlanNode)
    (num_queries : Nat) : AnnOutcome :=
  if seg.active_count = 0 then
    AnnOutcome.emptyResult (empty_search_result num_queries node.search_info)
  else
    let bitset_holder :=
      match node.filter_plannode with
      | some chunks => flipBitset (ExecuteExprNode chunks)
      | none => List.replicate seg.active_count false
    let b1 := seg.mask_with_timestamps bitset_holder
    let b2 := seg.mask_with_delete b1 seg.active_count
    if bitsetAll b2 then
      AnnOutcome.emptyResult (empty_search_result num_queries node.search_info)
    else
      AnnOutcome.vectorSearch b2

structure RetrievePlanNode where
  filter_plannode : Option (List ChunkResult)
  limit : Int
  is_count : Bool

/-- Outcome of the retrieve path: the default-constructed empty result, the
count wrapped by `wrap_num_entities`, or the offsets returned by
`find_first`. -/
inductive RetrieveOutcome where
  | emptyResult
  | countResult (cnt : Int)
  | offsetsResult (offs : List Int)
  deriving DecidableEq

/-- One call the retrieve path makes through the segment interface, recording
the bitset (and other arguments) passed to it. -/
inductive SegCall where
  | maskTs (b : List Bool)
  | maskDel (b : List Bool) (n : Nat)
  | tsFilter (b : List Bool)
  | tsFilterOffsets (b : List Bool) (offs : List Int)
  | findFirst (limit : Int) (b : List Bool) (already_flipped : Bool)
  deriving DecidableEq

/-- Whether a segment call is a `find_first` call. -/
def isFindFirstCall : SegCall → Bool
  | SegCall.findFirst _ _ _ => true
  | _ => false

/-- `ExecPlanNodeVisitor::visit(RetrievePlanNode&)` (ExecPlanNodeVisitor.cpp,
lines 201-268).  Returns the outcome together with the trace of segment
interface calls made after the filter ran (mask/filter/find calls, in order),
recording the bitset passed to each. -/
def visitRetrieve (seg : Segment) (node : RetrievePlanNode) :
    RetrieveOutcome × List SegCall :=
  if seg.active_count = 0 ∧ node.is_count = false then
    (RetrieveOutcome.emptyResult, [])
  else if seg.active_count = 0 ∧ node.is_count = true then
    (RetrieveOutcome.countResult 0, [])
  else
    -- the bitset is resized to active_count up front only for a count query
    let bitset0 : List Bool :=
      if node.is_count then List.replicate seg.active_count false else []
    let filtered :=
      match node.filter_plannode with
      | some chunks =>
        let st := ExecuteExprNodeInternal chunks
        (flipBitset st.bitset_holder, st.cache_offset_getted, st.cache_offset)
      | none => (bitset0, false, ([] : List Int))
    let bitset1 := filtered.1
    let get_cache_offset := filtered.2.1
    let cache_offsets := filtered.2.2
    let b2 := seg.mask_with_timestamps bitset1
    let b3 := seg.mask_with_delete b2 seg.active_count
    let trace0 := [SegCall.maskTs bitset1, SegCall.maskDel b2 seg.active_count]
    if bitsetAll b3 ∧ node.is_count = false then
      (RetrieveOutcome.emptyResult, trace0)
    else if node.is_count then
      (RetrieveOutcome.countResult ((b3.length : Int) - (b3.count true : Int)),
       trace0)
    else if get_cache_offset then
      let b4 := seg.timestamp_filter_offsets b3 cache_offsets
      (RetrieveOutcome.offsetsResult (seg.find_first node.limit b4 false),
       trace0 ++ [SegCall.tsFilterOffsets b3 cache_offsets,
                  SegCall.findFirst node.limit b4 false])
    else
      let b4 := seg.timestamp_filter (flipBitset b3)
      (RetrieveOutcome.offsetsResult (seg.find_first node.limit b4 true),
       trace0 ++ [SegCall.tsFilter (flipBitset b3),
                  SegCall.findFirst node.limit b4 true])

/-! ### SIMD dispatch (simd/hook.cpp)

The hooks are compiled either for x86-64 or for ARM NEON; the `use_*` gate
variables are initialized to `true` (hook.cpp, lines 36-39), so the binding
chosen by the one-time `init_hook_` initializer is a pure function of the
architecture and the CPU features reported by `InstructionSet`. -/

inductive Arch where
  | x86_64 | arm_neon | other
  deriving DecidableEq, Repr

structure CpuFeatures where
  avx512f : Bool
  avx512dq : Bool
  avx512bw : Bool
  avx2 : Bool
  sse42 : Bool
  sse2 : Bool
  deriving DecidableEq, Repr

/-- The concrete kernel implementation a dispatched symbol is bound to. -/
inductive SimdImpl where
  | ref | sse2impl | sse4impl | avx2impl | avx512impl | neonimpl
  deriving DecidableEq, Repr

/-- `cpu_support_avx512` (hook.cpp, lines 64-69): AVX-512 F, DQ and BW must
all be present. -/
def cpu_support_avx512 (f : CpuFeatures) : Bool :=
  f.avx512f && f.avx512dq && f.avx512bw

/-- `bitset_hook` (hook.cpp, lines 90-118): the binding chosen for
`get_bitset_block`.  Every x86 branch binds `GetBitsetBlockSSE2` ("For now,
sse2 has best performance"); ARM is not handled and keeps the reference
default. -/
def bitset_hook (arch : Arch) (f : CpuFeatures) : SimdImpl :=
  match arch with
  | Arch.x86_64 =>
    if cpu_support_avx512 f then SimdImpl.sse2impl
    else if f.avx2 then SimdImpl.sse2impl
    else if f.sse42 then SimdImpl.sse2impl
    else if f.sse2 then SimdImpl.sse2impl
    else SimdImpl.ref
  | _ => SimdImpl.ref

/-- `find_term_hook` (hook.cpp, lines 120-170): the binding chosen for every
`find_term_<T>` pointer (all seven scalar types are bound to the same feature
level).  ARM is not handled and keeps the reference default. -/
def find_term_hook (arch : Arch) (f : CpuFeatures) : SimdImpl :=
  match arch with
  | Arch.x86_64 =>
    if cpu_support_avx512 f then SimdImpl.avx512impl
    else if f.avx2 then SimdImpl.avx2impl
    else if f.sse42 then SimdImpl.sse4impl
    else if f.sse2 then SimdImpl.sse2impl
    else SimdImpl.ref
  | _ => SimdImpl.ref

/-- `all_boolean_hook` (hook.cpp, lines 172-190): the binding chosen for
`all_true` and `all_false` — only SSE2 is probed on x86; NEON on ARM. -/
def all_boolean_hook (arch : Arch) (f : CpuFeatures) : SimdImpl :=
  match arch with
  | Arch.x86_64 => if f.sse2 then SimdImpl.sse2impl else SimdImpl.ref
  | Arch.arm_neon => SimdImpl.neonimpl
  | Arch.other => SimdImpl.ref

/-- `invert_boolean_hook` (hook.cpp, lines 192-208): the binding chosen for
`invert_bool` — only SSE2 is probed on x86; NEON on ARM. -/
def invert_boolean_hook (arch : Arch) (f : CpuFeatures) : SimdImpl :=
  match arch with
  | Arch.x86_64 => if f.sse2 then SimdImpl.sse2impl else SimdImpl.ref
  | Arch.arm_neon => SimdImpl.neonimpl
  | Arch.other => SimdImpl.ref

/-- `logical_boolean_hook` (hook.cpp, lines 210-236): the binding chosen for
`and_bool` and `or_bool` — AVX-512, then AVX2, then SSE2 (no SSE4.2 tier);
NEON on ARM. -/
def logical_boolean_hook (arch : Arch) (f : CpuFeatures) : SimdImpl :=
  match arch with
  | Arch.x86_64 =>
    if cpu_support_avx512 f then SimdImpl.avx512impl
    else if f.avx2 then SimdImpl.avx2impl
    else if f.sse2 then SimdImpl.sse2impl
    else SimdImpl.ref
  | Arch.arm_neon => SimdImpl.neonimpl
  | Arch.other => SimdImpl.ref

/-- The implementation of the highest available CPU feature set, probed in the
order the claim states: AVX-512F+DQ+BW, then AVX2, then SSE4.2, then SSE2,
then reference on x86-64, and NEON then reference on ARM.  This definition
follows the specification text, to be compared with the hook definitions
embedded from hook.cpp. -/
def specHighestSimd (arch : Arch) (f : CpuFeatures) : SimdImpl :=
  match arch with
  | Arch.x86_64 =>
    if cpu_support_avx512 f then SimdImpl.avx512impl
    else if f.avx2 then SimdImpl.avx2impl
    else if f.sse42 then SimdImpl.sse4impl
    else if f.sse2 then SimdImpl.sse2impl
    else SimdImpl.ref
  | Arch.arm_neon => SimdImpl.neonimpl
  | Arch.other => SimdImpl.ref

/-! ### Resource graph construction (scheduler/SchedInst.cpp) -/

/-- A resource name as passed to `ResourceMgr::Add`: the literals `"disk"`
and `"cpu"`, or `std::to_string(gpu_id)` for a GPU (distinct from the two
literals, and injective in the device id). -/
inductive RName where
  | disk | cpu | gpu (id : Int)
  deriving DecidableEq, Repr

/-- `load_simple_config` (SchedInst.cpp, lines 46-92), reduced to the sequence
of resource names passed to `ResourceMgr::Add`: disk, cpu, one GPU per search
pool id, then one GPU per build pool id that was not found in the search pool
(`not_find_build_ids`). -/
def load_simple_config (gpu_ids build_gpu_ids : List Int) : List RName :=
  let not_find_build_ids :=
    build_gpu_ids.filter (fun b => !(gpu_ids.contains b))
  [RName.disk, RName.cpu]
    ++ gpu_ids.map RName.gpu
    ++ not_find_build_ids.map RName.gpu

/-- The boolean columns of the filter task's chunks, concatenated in order —
the bitset the accumulation loop builds. -/
def filterBits : List ChunkResult → List Bool
  | [] => []
  | c :: cs => chunkBits c ++ filterBits cs

/-- The bitset the retrieve path holds just before the masks when
`is_count = true`: the flipped accumulated filter bitset when a filter is
present, an all-zero bitset of length `active_count` otherwise. -/
def countBaseBitset (seg : Segment) (node : RetrievePlanNode) : List Bool :=
  match node.filter_plannode with
  | some chunks => flipBitset (ExecuteExprNodeInternal chunks).bitset_holder
  | none => List.replicate seg.active_count false

/-! ### Concrete fixtures used by counterexamples and witnesses -/

/-- A segment of `n` rows whose mask and filter operations change nothing and
whose `find_first` returns no offsets. -/
def segId (n : Nat) : Segment :=
  { active_count := n
    mask_with_timestamps := fun b => b
    mask_with_delete := fun b _ => b
    timestamp_filter := fun b => b
    timestamp_filter_offsets := fun b _ => b
    find_first := fun _ _ _ => [] }

/-- A segment of 4 rows whose timestamp mask excludes row 3 (its insert
timestamp is past the query timestamp) and whose delete mask changes
nothing. -/
def segTsRow3 : Segment :=
  { active_count := 4
    mask_with_timestamps := fun b => b.set 3 true
    mask_with_delete := fun b _ => b
    timestamp_filter := fun b => b
    timestamp_filter_offsets := fun b _ => b
    find_first := fun _ _ _ => [] }

/-- A CPU reporting every probed x86-64 feature. -/
def featFull : CpuFeatures :=
  { avx512f := true, avx512dq := true, avx512bw := true
    avx2 := true, sse42 := true, sse2 := true }

/-! ## Helper lemmas -/

theorem count_true_eq_zero_iff (l : List Bool) :
    l.count true = 0 ↔ AllFalse l = true := by
  induction l with
  | nil => simp [AllFalse]
  | cons b t ih =>
    cases b
    · simpa [AllFalse, List.count_cons] using ih
    · simp [AllFalse, List.count_cons]

theorem count_false_eq_zero_iff (l : List Bool) :
    l.count false = 0 ↔ AllTrue l = true := by
  induction l with
  | nil => simp [AllTrue]
  | cons b t ih =>
    cases b
    · simp [AllTrue, List.count_cons]
    · simpa [AllTrue, List.count_cons] using ih

theorem UpdateResult_snd_eq_zero (is_and : Bool) (c r : List Bool) :
    (UpdateResult is_and c r).2 = 0 ↔
      dominated is_and (UpdateResult is_and c r).1 = true := by
  cases is_and <;>
    simp [UpdateResult, ConjunctElementFunc, dominated,
      count_true_eq_zero_iff, count_false_eq_zero_iff]

theorem combineRun_cons (is_and : Bool) (r c : List Bool)
    (cs : List (List Bool)) :
    combineRun is_and r (c :: cs) =
      combineRun is_and (UpdateResult is_and c r).1 cs := rfl

theorem EvalLoop_tail_indep (is_and : Bool) :
    ∀ (pre : List (List Bool)) (c running : List Bool) (k : Nat)
      (t1 t2 : List (List Bool)),
      dominated is_and (combineRun is_and running (pre ++ [c])) = true →
      EvalLoop is_and running k (pre ++ c :: t1) =
        EvalLoop is_and running k (pre ++ c :: t2) := by
  intro pre
  induction pre with
  | nil =>
    intro c running k t1 t2 hdom
    have h0 : (UpdateResult is_and c running).2 = 0 := by
      rw [UpdateResult_snd_eq_zero]
      simpa [combineRun] using hdom
    simp [EvalLoop, h0]
  | cons d pre ih =>
    intro c running k t1 t2 hdom
    rw [List.cons_append, combineRun_cons] at hdom
    by_cases h0 : (UpdateResult is_and d running).2 = 0
    · simp [EvalLoop, h0]
    · simpa [EvalLoop, h0] using
        ih c (UpdateResult is_and d running).1 (k + 1) t1 t2 hdom

theorem execLoop_bitset (cs : List ChunkResult) :
    ∀ st : ExprExecState,
      (execLoop st cs).bitset_holder = st.bitset_holder ++ filterBits cs := by
  induction cs with
  | nil => intro st; simp [execLoop, filterBits]
  | cons ch rest ih =>
    intro st
    cases ch with
    | column bits =>
      simp [execLoop, AppendOneChunk, ih, chunkBits, filterBits]
    | row bits offs =>
      by_cases hc : st.cache_offset_getted = true
      · simp [execLoop, AppendOneChunk, hc, ih, chunkBits, filterBits]
      · simp [execLoop, AppendOneChunk, hc, ih, chunkBits, filterBits]

theorem ExecuteExprNode_eq (chunks : List ChunkResult) :
    ExecuteExprNode chunks = filterBits chunks := by
  simp [ExecuteExprNode, ExecuteExprNodeInternal, execLoop_bitset]

/-! ## Claim theorems -/

/-- Claim C2: a conjunct whose first child is all-false (for AND; dually
all-true for OR) returns the first child's result unchanged, evaluating only
that child; and for later children, the evaluation never looks past the point
where the combined running result becomes fully dominated (all-false for AND,
all-true for OR) — replacing everything after that point changes nothing. -/
theorem conjunct_short_circuit :
    (∀ (c0 : List Bool) (rest : List (List Bool)),
      AllFalse c0 = true → Eval true c0 rest = (c0, 1)) ∧
    (∀ (c0 : List Bool) (rest : List (List Bool)),
      AllTrue c0 = true → Eval false c0 rest = (c0, 1)) ∧
    (∀ (is_and : Bool) (c0 : List Bool) (pre : List (List Bool))
       (c : List Bool) (t1 t2 : List (List Bool)),
      dominated is_and (combineRun is_and c0 (pre ++ [c])) = true →
      Eval is_and c0 (pre ++ c :: t1) = Eval is_and c0 (pre ++ c :: t2)) := by
  refine ⟨?_, ?_, ?_⟩
  · intro c0 rest h
    simp [Eval, CanSkipNextExprs, h]
  · intro c0 rest h
    simp [Eval, CanSkipNextExprs, h]
  · intro is_and c0 pre c t1 t2 hdom
    by_cases hskip : CanSkipNextExprs is_and c0 = true
    · simp [Eval, hskip]
    · simp only [Eval, hskip, if_false]
      exact EvalLoop_tail_indep is_and pre c c0 1 t1 t2 hdom

/-- Witness for C2 at concrete inputs: an all-false first AND child is
returned as-is after one evaluation; an all-true first OR child likewise; and
once the running AND result is dominated after the second child, the tail does
not matter. -/
theorem conjunct_short_circuit_witness :
    Eval true [false, false] [[true, true]] = ([false, false], 1) ∧
    Eval false [true, true] [[false, false]] = ([true, true], 1) ∧
    Eval true [true, false] ([[false, false]] ++ [true, true] ::
        [[true, true], [false, true]]) =
      Eval true [true, false] ([[false, false]] ++ [true, true] :: []) :=
  ⟨conjunct_short_circuit.1 [false, false] [[true, true]] (by decide),
   conjunct_short_circuit.2.1 [true, true] [[false, false]] (by decide),
   conjunct_short_circuit.2.2 true [true, false] [[false, false]] [true, true]
     [[true, true], [false, true]] [] (by decide)⟩

/-- Claim C7: `ResolveType` of a conjunct fails exactly when the input type
list is empty or contains a type other than BOOL; with at least one input and
every input BOOL it succeeds and returns BOOL. -/
theorem conjunct_resolve_type (inputs : List DataType) :
    ((inputs = [] ∨ ∃ t ∈ inputs, t ≠ DataType.BOOL) ↔
      ∃ e, ResolveType inputs = Except.error e) ∧
    ((inputs ≠ [] ∧ ∀ t ∈ inputs, t = DataType.BOOL) →
      ResolveType inputs = Except.ok DataType.BOOL) := by
  by_cases h0 : inputs = []
  · subst h0
    simp [ResolveType]
  · by_cases hall : ∀ t ∈ inputs, t = DataType.BOOL
    · have hlen : inputs.length > 0 := List.length_pos.mpr h0
      have hb : inputs.all (fun t => decide (t = DataType.BOOL)) = true := by
        simp [List.all_eq_true]
        exact hall
      constructor
      · simp [ResolveType, hlen, hb, h0]
        exact hall
      · intro _
        simp [ResolveType, hlen, hb]
    · have hlen : inputs.length > 0 := List.length_pos.mpr h0
      have hb : ¬ inputs.all (fun t => decide (t = DataType.BOOL)) = true := by
        simp [List.all_eq_true]
        push_neg at hall
        obtain ⟨t, ht, hne⟩ := hall
        exact ⟨t, ht, hne⟩
      constructor
      · simp [ResolveType, hlen, hb, h0]
        push_neg at hall
        obtain ⟨t, ht, hne⟩ := hall
        exact ⟨t, ht, hne⟩
      · intro ⟨_, hc⟩
        exact absurd hc hall

/-- Witness for C7 at concrete inputs: two BOOL inputs resolve to BOOL, and a
BOOL/INT64 mix is a typing failure. -/
theorem conjunct_resolve_type_witness :
    ResolveType [DataType.BOOL, DataType.BOOL] = Except.ok DataType.BOOL ∧
    ∃ e, ResolveType [DataType.BOOL, DataType.INT64] = Except.error e :=
  ⟨(conjunct_resolve_type [DataType.BOOL, DataType.BOOL]).2
      ⟨by decide, by decide⟩,
   (conjunct_resolve_type [DataType.BOOL, DataType.INT64]).1.mp
      (Or.inr ⟨DataType.INT64, by decide, by decide⟩)⟩

/-- Claim C1: in the ANN path with a filter present on a segment with a
positive active count, the executor accumulates the filter chunks into a
bitset, flips it, applies the timestamp mask then the delete mask, and either
returns the empty search result (when every bit is set) without invoking
`vector_search`, or invokes `vector_search` with exactly that bitset. -/
theorem ann_filter_path (seg : Segment) (chunks : List ChunkResult)
    (info : SearchInfo) (nq : Nat) (hpos : 0 < seg.active_count) :
    VectorVisitorImpl seg ⟨info, some chunks⟩ nq =
      (let b := seg.mask_with_delete
        (seg.mask_with_timestamps (flipBitset (filterBits chunks)))
        seg.active_count
      if bitsetAll b = true then
        AnnOutcome.emptyResult (empty_search_result nq info)
      else
        AnnOutcome.vectorSearch b) := by
  have hne : ¬ seg.active_count = 0 := Nat.pos_iff_ne_zero.mp hpos
  simp [VectorVisitorImpl, hne, ExecuteExprNode_eq]

/-- Witness for C1: a 3-row segment with identity masks and a filter matching
rows 0 and 2 reaches `vector_search` with the exclusion bitset `[0,1,0]`. -/
theorem ann_filter_path_witness :
    0 < (segId 3).active_count ∧
    VectorVisitorImpl (segId 3)
        ⟨⟨10, MetricType.L2, 0⟩,
         some [ChunkResult.column [true, false], ChunkResult.column [true]]⟩
        2 =
      (let b := (segId 3).mask_with_delete
        ((segId 3).mask_with_timestamps (flipBitset
          (filterBits [ChunkResult.column [true, false],
                       ChunkResult.column [true]])))
        (segId 3).active_count
      if bitsetAll b = true then
        AnnOutcome.emptyResult (empty_search_result 2 ⟨10, MetricType.L2, 0⟩)
      else
        AnnOutcome.vectorSearch b) :=
  ⟨by decide,
   ann_filter_path (segId 3)
     [ChunkResult.column [true, false], ChunkResult.column [true]]
     ⟨10, MetricType.L2, 0⟩ 2 (by decide)⟩

/-- Claim C6: in the ANN path on a segment with active count 0, the executor
returns — without building any bitset or searching — an empty result whose
`total_nq` is the number of query vectors, whose `unity_topK` is the plan's
top-k, with `nq × top_k` offsets equal to −1 and all distances equal to the
metric's sentinel value. -/
theorem ann_empty_segment (seg : Segment) (node : VectorPlanNode) (nq : Nat)
    (h : seg.active_count = 0) :
    VectorVisitorImpl seg node nq =
      AnnOutcome.emptyResult
        { total_nq := nq
          unity_topK := node.search_info.topk
          seg_offsets := List.replicate (nq * node.search_info.topk) (-1)
          distances := List.replicate (nq * node.search_info.topk)
            (metricSentinel node.search_info.metric_type) } := by
  simp [VectorVisitorImpl, h, empty_search_result]

/-- Witness for C6, scenario S1: `n = 0`, `top_k = 10`, `nq = 2` yields
`total_nq = 2`, `unity_topK = 10`, 20 offsets of −1 and 20 sentinel
distances. -/
theorem ann_empty_segment_witness :
    (segId 0).active_count = 0 ∧
    VectorVisitorImpl (segId 0) ⟨⟨10, MetricType.L2, 0⟩, none⟩ 2 =
      AnnOutcome.emptyResult
        { total_nq := 2
          unity_topK := 10
          seg_offsets := List.replicate 20 (-1)
          distances := List.replicate 20 DistValue.posInf } :=
  ⟨rfl, ann_empty_segment (segId 0) ⟨⟨10, MetricType.L2, 0⟩, none⟩ 2 rfl⟩

/-- Claim C3: a count retrieve on a segment with `active_count = n > 0`
returns a single Int64 equal to `n` minus the number of set bits of the
visibility bitset after the timestamp mask and the delete mask have been
applied.  (The mask operations preserve the bitset length, and the filter
chunks cover the segment, so the bitset before the masks has length `n`.) -/
theorem retrieve_count_after_masks (seg : Segment) (node : RetrievePlanNode)
    (hc : node.is_count = true) (hn : 0 < seg.active_count)
    (hT : ∀ b, (seg.mask_with_timestamps b).length = b.length)
    (hD : ∀ b n, (seg.mask_with_delete b n).length = b.length)
    (hbase : (countBaseBitset seg node).length = seg.active_count) :
    (visitRetrieve seg node).1 =
      RetrieveOutcome.countResult
        ((seg.active_count : Int) -
          ((seg.mask_with_delete
            (seg.mask_with_timestamps (countBaseBitset seg node))
            seg.active_count).count true : Int)) := by
  have hne : ¬ seg.active_count = 0 := Nat.pos_iff_ne_zero.mp hn
  obtain ⟨f, limit, is_count⟩ := node
  simp only at hc
  subst hc
  have hlen : (seg.mask_with_delete
      (seg.mask_with_timestamps (countBaseBitset seg ⟨f, limit, true⟩))
      seg.active_count).length = seg.active_count := by
    rw [hD, hT, hbase]
  cases f with
  | none =>
    simp only [visitRetrieve, countBaseBitset] at *
    simp [hne, hlen]
  | some chunks =>
    simp only [visitRetrieve, countBaseBitset] at *
    simp [hne, hlen]

/-- Witness for C3: a 6-row segment with identity masks and a filter matching
rows 1 and 4 yields count `6 − 4 = 2`. -/
theorem retrieve_count_after_masks_witness :
    0 < (segId 6).active_count ∧
    (countBaseBitset (segId 6)
        ⟨some [ChunkResult.column
          [false, true, false, false, true, false]], 0, true⟩).length =
      (segId 6).active_count ∧
    (visitRetrieve (segId 6)
        ⟨some [ChunkResult.column
          [false, true, false, false, true, false]], 0, true⟩).1 =
      RetrieveOutcome.countResult
        (((segId 6).active_count : Int) -
          (((segId 6).mask_with_delete
            ((segId 6).mask_with_timestamps
              (countBaseBitset (segId 6)
                ⟨some [ChunkResult.column
                  [false, true, false, false, true, false]], 0, true⟩))
            (segId 6).active_count).count true : Int)) :=
  ⟨by decide, by decide,
   retrieve_count_after_masks (segId 6)
     ⟨some [ChunkResult.column [false, true, false, false, true, false]],
      0, true⟩
     rfl (by decide) (fun b => rfl) (fun b n => rfl) (by decide)⟩

/-- Counterexample to claim C4: a 4-row segment whose timestamp mask excludes
row 3, with a filter matching every row.  The flipped filter bitset alone has
no set bit, so a count taken before the masks would be `4`; the code returns
`3`, because the count is taken after the timestamp and delete masks. -/
theorem retrieve_count_premask_cex :
    (visitRetrieve segTsRow3
        ⟨some [ChunkResult.column [true, true, true, true]], 0, true⟩).1 =
      RetrieveOutcome.countResult 3 ∧
    ((segTsRow3.active_count : Int) -
      ((flipBitset (ExecuteExprNodeInternal
        [ChunkResult.column [true, true, true, true]]).bitset_holder).count
          true : Int)) = 4 ∧
    RetrieveOutcome.countResult 3 ≠ RetrieveOutcome.countResult 4 := by
  refine ⟨by decide, by decide, by decide⟩

/-- Claim C4 as amended: in the retrieve path with `is_count = true`, the
count is computed after the MVCC timestamp mask and the delete mask have been
applied — the counted bitset is the flipped filter bitset with both masks in
it, and the returned value is its length minus its number of set bits. -/
theorem retrieve_count_masks_applied (seg : Segment) (node : RetrievePlanNode)
    (hc : node.is_count = true) (hn : 0 < seg.active_count) :
    (visitRetrieve seg node).1 =
      RetrieveOutcome.countResult
        (((seg.mask_with_delete
            (seg.mask_with_timestamps (countBaseBitset seg node))
            seg.active_count).length : Int) -
          ((seg.mask_with_delete
            (seg.mask_with_timestamps (countBaseBitset seg node))
            seg.active_count).count true : Int)) := by
  have hne : ¬ seg.active_count = 0 := Nat.pos_iff_ne_zero.mp hn
  obtain ⟨f, limit, is_count⟩ := node
  simp only at hc
  subst hc
  cases f with
  | none =>
    simp only [visitRetrieve, countBaseBitset]
    simp [hne]
  | some chunks =>
    simp only [visitRetrieve, countBaseBitset]
    simp [hne]

/-- Witness for the amended C4 on the counterexample segment: the returned
count is the masked bitset's length minus its popcount, `4 − 1 = 3`. -/
theorem retrieve_count_masks_applied_witness :
    0 < segTsRow3.active_count ∧
    (visitRetrieve segTsRow3
        ⟨some [ChunkResult.column [true, true, true, true]], 0, true⟩).1 =
      RetrieveOutcome.countResult
        (((segTsRow3.mask_with_delete
            (segTsRow3.mask_with_timestamps
              (countBaseBitset segTsRow3
                ⟨some [ChunkResult.column [true, true, true, true]],
                 0, true⟩))
            segTsRow3.active_count).length : Int) -
          ((segTsRow3.mask_with_delete
            (segTsRow3.mask_with_timestamps
              (countBaseBitset segTsRow3
                ⟨some [ChunkResult.column [true, true, true, true]],
                 0, true⟩))
            segTsRow3.active_count).count true : Int)) :=
  ⟨by decide,
   retrieve_count_masks_applied segTsRow3
     ⟨some [ChunkResult.column [true, true, true, true]], 0, true⟩
     rfl (by decide)⟩

/-- Claim C5: in the retrieve path with a filter, `is_count = false` and
surviving rows after the masks, the result depends on whether the filter
materialized cached offsets.  If it did, `timestamp_filter(bitset, offsets,
ts)` is called on the unflipped exclusion bitset and `find_first` receives
`already_flipped = false`; otherwise the bitset is flipped so survivors are
1-bits, `timestamp_filter(bitset, ts)` is called, and `find_first` receives
`already_flipped = true`.  The result offsets are exactly what `find_first`
returns. -/
theorem retrieve_mvcc_fast_path (seg : Segment) (chunks : List ChunkResult)
    (limit : Int) (hn : 0 < seg.active_count)
    (hsurv : bitsetAll (seg.mask_with_delete
      (seg.mask_with_timestamps
        (flipBitset (ExecuteExprNodeInternal chunks).bitset_holder))
      seg.active_count) = false) :
    visitRetrieve seg ⟨some chunks, limit, false⟩ =
      (let st := ExecuteExprNodeInternal chunks
      let b3 := seg.mask_with_delete
        (seg.mask_with_timestamps (flipBitset st.bitset_holder))
        seg.active_count
      if st.cache_offset_getted then
        (RetrieveOutcome.offsetsResult (seg.find_first limit
            (seg.timestamp_filter_offsets b3 st.cache_offset) false),
         [SegCall.maskTs (flipBitset st.bitset_holder),
          SegCall.maskDel
            (seg.mask_with_timestamps (flipBitset st.bitset_holder))
            seg.active_count,
          SegCall.tsFilterOffsets b3 st.cache_offset,
          SegCall.findFirst limit
            (seg.timestamp_filter_offsets b3 st.cache_offset) false])
      else
        (RetrieveOutcome.offsetsResult (seg.find_first limit
            (seg.timestamp_filter (flipBitset b3)) true),
         [SegCall.maskTs (flipBitset st.bitset_holder),
          SegCall.maskDel
            (seg.mask_with_timestamps (flipBitset st.bitset_holder))
            seg.active_count,
          SegCall.tsFilter (flipBitset b3),
          SegCall.findFirst limit
            (seg.timestamp_filter (flipBitset b3)) true])) := by
  have hne : ¬ seg.active_count = 0 := Nat.pos_iff_ne_zero.mp hn
  by_cases hco : (ExecuteExprNodeInternal chunks).cache_offset_getted = true
  · simp [visitRetrieve, hne, hsurv, hco]
  · simp [visitRetrieve, hne, hsurv, hco]

/-- Witness for C5: a 3-row segment with identity masks and a filter whose
single chunk materialized offsets takes the cached-offset branch, with
`already_flipped = false`. -/
theorem retrieve_mvcc_fast_path_witness :
    0 < (segId 3).active_count ∧
    bitsetAll ((segId 3).mask_with_delete
      ((segId 3).mask_with_timestamps
        (flipBitset (ExecuteExprNodeInternal
          [ChunkResult.row [true, false, true] [0, 2]]).bitset_holder))
      (segId 3).active_count) = false ∧
    visitRetrieve (segId 3)
        ⟨some [ChunkResult.row [true, false, true] [0, 2]], 20, false⟩ =
      (let st := ExecuteExprNodeInternal
        [ChunkResult.row [true, false, true] [0, 2]]
      let b3 := (segId 3).mask_with_delete
        ((segId 3).mask_with_timestamps (flipBitset st.bitset_holder))
        (segId 3).active_count
      if st.cache_offset_getted then
        (RetrieveOutcome.offsetsResult ((segId 3).find_first 20
            ((segId 3).timestamp_filter_offsets b3 st.cache_offset) false),
         [SegCall.maskTs (flipBitset st.bitset_holder),
          SegCall.maskDel
            ((segId 3).mask_with_timestamps (flipBitset st.bitset_holder))
            (segId 3).active_count,
          SegCall.tsFilterOffsets b3 st.cache_offset,
          SegCall.findFirst 20
            ((segId 3).timestamp_filter_offsets b3 st.cache_offset) false])
      else
        (RetrieveOutcome.offsetsResult ((segId 3).find_first 20
            ((segId 3).timestamp_filter (flipBitset b3)) true),
         [SegCall.maskTs (flipBitset st.bitset_holder),
          SegCall.maskDel
            ((segId 3).mask_with_timestamps (flipBitset st.bitset_holder))
            (segId 3).active_count,
          SegCall.tsFilter (flipBitset b3),
          SegCall.findFirst 20
            ((segId 3).timestamp_filter (flipBitset b3)) true])) :=
  ⟨by decide, by decide,
   retrieve_mvcc_fast_path (segId 3)
     [ChunkResult.row [true, false, true] [0, 2]] 20
     (by decide) (by decide)⟩

/-- Counterexample to claim C10: on a 5-row segment with identity masks, a
retrieve with no filter and `is_count = false` makes no `timestamp_filter` or
`find_first` call at all (so no length-0 bitset is passed to them): the empty
bitset vacuously satisfies `bitset.all()`, and the executor returns the empty
result right after the two masks. -/
theorem retrieve_nofilter_cex :
    (visitRetrieve (segId 5) ⟨none, 20, false⟩).2 =
      [SegCall.maskTs [], SegCall.maskDel [] 5] ∧
    ((visitRetrieve (segId 5) ⟨none, 20, false⟩).2.any isFindFirstCall)
      = false ∧
    (visitRetrieve (segId 5) ⟨none, 20, false⟩).1 =
      RetrieveOutcome.emptyResult := by
  refine ⟨by decide, by decide, by decide⟩

/-- Claim C10 as amended: in the retrieve path with no filter and
`is_count = false`, the bitset is never resized to `active_count` (it is
allocated up front only when `is_count = true`, and otherwise only by
executing a filter expression); the bitsets passed to `mask_with_timestamps`
and `mask_with_delete` have length 0, and `timestamp_filter` and `find_first`
are never reached — the length-0 bitset vacuously satisfies `bitset.all()`,
so the executor returns the empty result directly after the masks. -/
theorem retrieve_nofilter_empty (seg : Segment) (limit : Int)
    (hn : 0 < seg.active_count)
    (hT : ∀ b, (seg.mask_with_timestamps b).length = b.length)
    (hD : ∀ b n, (seg.mask_with_delete b n).length = b.length) :
    visitRetrieve seg ⟨none, limit, false⟩ =
      (RetrieveOutcome.emptyResult,
       [SegCall.maskTs [], SegCall.maskDel [] seg.active_count]) := by
  have hne : ¬ seg.active_count = 0 := Nat.pos_iff_ne_zero.mp hn
  have hT0 : seg.mask_with_timestamps [] = [] := by
    have := hT []
    simpa [List.length_eq_zero] using this
  have hD0 : seg.mask_with_delete [] seg.active_count = [] := by
    have := hD [] seg.active_count
    simpa [List.length_eq_zero] using this
  simp [visitRetrieve, hne, hT0, hD0, bitsetAll]

/-- Witness for the amended C10 on a 5-row segment with identity masks. -/
theorem retrieve_nofilter_empty_witness :
    0 < (segId 5).active_count ∧
    (∀ b : List Bool,
      ((segId 5).mask_with_timestamps b).length = b.length) ∧
    (∀ (b : List Bool) (n : Nat),
      ((segId 5).mask_with_delete b n).length = b.length) ∧
    visitRetrieve (segId 5) ⟨none, 20, false⟩ =
      (RetrieveOutcome.emptyResult,
       [SegCall.maskTs [], SegCall.maskDel [] (segId 5).active_count]) :=
  ⟨by decide, fun b => rfl, fun b n => rfl,
   retrieve_nofilter_empty (segId 5) 20 (by decide)
     (fun b => rfl) (fun b n => rfl)⟩

/-- Counterexample to claim C8: on a CPU supporting every probed x86-64
feature set, `get_bitset_block` is bound to the SSE2 implementation, not to
the AVX-512 implementation the highest-feature-set rule would pick; likewise
`all_true`/`all_false` are bound to SSE2. -/
theorem simd_dispatch_cex :
    bitset_hook Arch.x86_64 featFull = SimdImpl.sse2impl ∧
    specHighestSimd Arch.x86_64 featFull = SimdImpl.avx512impl ∧
    SimdImpl.sse2impl ≠ SimdImpl.avx512impl ∧
    all_boolean_hook Arch.x86_64 featFull = SimdImpl.sse2impl := by
  refine ⟨by decide, by decide, by decide, by decide⟩

/-- Claim C8 as amended: after the one-time initialization the bindings are a
fixed function of the CPU features, but only the `find_term` symbols follow
the full probe order AVX-512F+DQ+BW → AVX2 → SSE4.2 → SSE2 → ref.
`get_bitset_block` is bound to the SSE2 implementation whenever any probed x86
feature set is available (the code keeps SSE2 "for now" as the fastest);
`all_true`, `all_false` and `invert_bool` probe only SSE2; `and_bool` and
`or_bool` probe AVX-512 → AVX2 → SSE2 with no SSE4.2 tier.  On ARM the
boolean symbols bind NEON while `get_bitset_block` and `find_term` keep the
reference implementation. -/
theorem simd_dispatch_bindings :
    ∀ (arch : Arch) (f : CpuFeatures),
      find_term_hook arch f =
        (match arch with
         | Arch.x86_64 => specHighestSimd Arch.x86_64 f
         | _ => SimdImpl.ref) ∧
      bitset_hook arch f =
        (match arch with
         | Arch.x86_64 =>
           if specHighestSimd Arch.x86_64 f = SimdImpl.ref then SimdImpl.ref
           else SimdImpl.sse2impl
         | _ => SimdImpl.ref) ∧
      all_boolean_hook arch f =
        (match arch with
         | Arch.x86_64 =>
           if f.sse2 then SimdImpl.sse2impl else SimdImpl.ref
         | Arch.arm_neon => SimdImpl.neonimpl
         | Arch.other => SimdImpl.ref) ∧
      invert_boolean_hook arch f = all_boolean_hook arch f ∧
      logical_boolean_hook arch f =
        specHighestSimd arch { f with sse42 := false } := by
  intro arch f
  cases arch <;>
    · obtain ⟨a, b, c, d, e, g⟩ := f
      revert a b c d e g
      decide

/-- Counterexample to claim C9: with an empty search pool and the build pool
`[7, 7]`, `load_simple_config` passes the GPU resource name for device 7 to
`ResourceMgr::Add` twice — the `not_find_build_ids` loop only filters build
ids against the search pool, not against each other. -/
theorem load_simple_config_dup_cex :
    load_simple_config [] [7, 7] =
      [RName.disk, RName.cpu, RName.gpu 7, RName.gpu 7] ∧
    ¬ (load_simple_config [] [7, 7]).Nodup := by
  refine ⟨by decide, by decide⟩

/-- Claim C9 as amended: for every pair of duplicate-free GPU id lists,
`load_simple_config` adds exactly one GPU resource per distinct device id in
the union of the two pools — build ids already in the search pool are filtered
out before the second Add loop — so no resource name is passed to
`ResourceMgr::Add` twice. -/
theorem load_simple_config_nodup (gpu_ids build_gpu_ids : List Int)
    (h1 : gpu_ids.Nodup) (h2 : build_gpu_ids.Nodup) :
    (load_simple_config gpu_ids build_gpu_ids).Nodup ∧
    (∀ id : Int,
      RName.gpu id ∈ load_simple_config gpu_ids build_gpu_ids ↔
        (id ∈ gpu_ids ∨ id ∈ build_gpu_ids)) := by
  have hinj : Function.Injective RName.gpu := by
    intro a b h
    injection h
  have hgpu_form : ∀ x, x ∈ gpu_ids.map RName.gpu ++
      (build_gpu_ids.filter
        (fun b => !(gpu_ids.contains b))).map RName.gpu →
      ∃ i, x = RName.gpu i := by
    intro x hx
    rcases List.mem_append.mp hx with hx | hx
    · obtain ⟨a, _, ha⟩ := List.mem_map.mp hx
      exact ⟨a, ha.symm⟩
    · obtain ⟨a, _, ha⟩ := List.mem_map.mp hx
      exact ⟨a, ha.symm⟩
  have hAB : (gpu_ids.map RName.gpu ++
      (build_gpu_ids.filter
        (fun b => !(gpu_ids.contains b))).map RName.gpu).Nodup := by
    refine (h1.map hinj).append ((h2.filter _).map hinj) ?_
    intro x hx hx2
    obtain ⟨a, ha, rfl⟩ := List.mem_map.mp hx
    obtain ⟨b, hb, hba⟩ := List.mem_map.mp hx2
    have hab : b = a := hinj hba
    subst hab
    have hfe := (List.mem_filter.mp hb).2
    simp [List.contains] at hfe
    exact hfe ha
  constructor
  · show (RName.disk :: RName.cpu :: (gpu_ids.map RName.gpu ++
      (build_gpu_ids.filter
        (fun b => !(gpu_ids.contains b))).map RName.gpu)).Nodup
    refine List.nodup_cons.mpr ⟨?_, List.nodup_cons.mpr ⟨?_, hAB⟩⟩
    · intro h
      rcases List.mem_cons.mp h with h | h
      · exact RName.noConfusion h
      · obtain ⟨i, hi⟩ := hgpu_form _ h
        exact RName.noConfusion hi
    · intro h
      obtain ⟨i, hi⟩ := hgpu_form _ h
      exact RName.noConfusion hi
  · intro id
    constructor
    · intro h
      have h' : RName.gpu id ∈ gpu_ids.map RName.gpu ++
          (build_gpu_ids.filter
            (fun b => !(gpu_ids.contains b))).map RName.gpu := by
        rcases List.mem_cons.mp h with h | h
        · exact absurd h (by intro hx; exact RName.noConfusion hx)
        · rcases List.mem_cons.mp h with h | h
          · exact absurd h (by intro hx; exact RName.noConfusion hx)
          · exact h
      rcases List.mem_append.mp h' with hx | hx
      · obtain ⟨a, ha, hae⟩ := List.mem_map.mp hx
        exact Or.inl (hinj hae ▸ ha)
      · obtain ⟨a, ha, hae⟩ := List.mem_map.mp hx
        exact Or.inr (hinj hae ▸ (List.mem_filter.mp ha).1)
    · intro h
      have h' : RName.gpu id ∈ gpu_ids.map RName.gpu ++
          (build_gpu_ids.filter
            (fun b => !(gpu_ids.contains b))).map RName.gpu := by
        by_cases hg : id ∈ gpu_ids
        · exact List.mem_append.mpr
            (Or.inl (List.mem_map.mpr ⟨id, hg, rfl⟩))
        · rcases h with h | h
          · exact absurd h hg
          · refine List.mem_append.mpr
              (Or.inr (List.mem_map.mpr ⟨id, ?_, rfl⟩))
            refine List.mem_filter.mpr ⟨h, ?_⟩
            simp [List.contains]
            exact hg
      exact List.mem_cons.mpr (Or.inr (List.mem_cons.mpr (Or.inr h')))

/-- Witness for the amended C9: search pool `[1, 2]`, build pool `[2, 3]`
yields the distinct resources disk, cpu, gpu 1, gpu 2, gpu 3, and a GPU id is
added exactly when it is in one of the pools. -/
theorem load_simple_config_nodup_witness :
    ([1, 2] : List Int).Nodup ∧ ([2, 3] : List Int).Nodup ∧
    ((load_simple_config [1, 2] [2, 3]).Nodup ∧
      (∀ id : Int,
        RName.gpu id ∈ load_simple_config [1, 2] [2, 3] ↔
          (id ∈ ([1, 2] : List Int) ∨ id ∈ ([2, 3] : List Int)))) :=
  ⟨by decide, by decide,
   load_simple_config_nodup [1, 2] [2, 3] (by decide) (by decide)⟩

end Milvus
